import Mathlib

/-!
Shallow embedding of `src/vstreams/src/services/witness_block_import.rs`
(the `WitnessBlockImport` / `DefferedBlocks` module of validated-streams).

Byte strings (`Vec<u8>`) are lists of naturals, `H256` is a 32-byte string,
`HashMap`s are association lists, and the external collaborators (sr25519
signature verification, bincode deserialization, the `EventProofs` store, the
runtime client and the inner import stage) are parameters of the embedded
functions.  Side effects on the DHT (`get_value` / `put_value`) are returned
as explicit request lists, and the Rust `usize` underflow panic in the
threshold computation is the `none` branch of `verify_proofs`.
-/

namespace ValidatedStreams

/-- Raw byte strings (`Vec<u8>` in the source). -/
abbrev Bytes : Type := List Nat

/-- `sp_core::H256`: an opaque 256-bit hash, exactly 32 bytes. -/
abbrev H256 : Type := { b : Bytes // b.length = 32 }

/-- `CryptoTypePublicPair`: a crypto-type identifier together with the raw
public-key bytes (the source reads the key bytes as `key.1`, here `.2`). -/
abbrev CryptoTypePublicPair : Type := Nat × Bytes

/-- `ProofsMap = HashMap<H256, HashMap<CryptoTypePublicPair, Vec<u8>>>`,
modelled as association lists (one fixed iteration order per value). -/
abbrev ProofsMap : Type := List (H256 × List (CryptoTypePublicPair × Bytes))

instance : DecidableEq (H256 × List (CryptoTypePublicPair × Bytes)) := inferInstance

instance : DecidableEq ProofsMap := inferInstance

instance : DecidableEq (List ProofsMap) := inferInstance

instance {ε α : Type} [DecidableEq ε] [DecidableEq α] : DecidableEq (Except ε α) := fun a b => by
  cases a <;> cases b
  case error.error e f => exact decidable_of_iff (e = f) (by simp)
  case ok.ok x y => exact decidable_of_iff (x = y) (by simp)
  all_goals exact .isFalse (by simp)

/-- `sr25519::Signature::from_slice`: succeeds exactly on 64-byte strings. -/
def decodeSig (b : Bytes) : Option Bytes := if b.length = 64 then some b else none

/-- `sr25519::Public::from_slice`: succeeds exactly on 32-byte strings. -/
def decodePub (b : Bytes) : Option Bytes := if b.length = 32 then some b else none

/-- The external sr25519 verification oracle `pubkey.verify(&event, &signature)`:
public-key bytes, message (the event hash) and signature bytes. -/
abbrev SigVerify : Type := Bytes → H256 → Bytes → Bool

/-- Association-list lookup, the model of `HashMap::get` / `contains_key`. -/
def lookupA {α β : Type} [DecidableEq α] : List (α × β) → α → Option β
  | [], _ => none
  | (k, v) :: rest, key => if k = key then some v else lookupA rest key

/-- Association-list insert-or-replace, the model of `HashMap::insert`
(the previous value, if any, is overwritten). -/
def updateEntry {α β : Type} [DecidableEq α] : List (α × β) → α → β → List (α × β)
  | [], key, v => [(key, v)]
  | (k, w) :: rest, key, v =>
      if k = key then (key, v) :: rest else (k, w) :: updateEntry rest key v

/-- Association-list removal, the model of `HashMap::remove`. -/
def removeEntry {α β : Type} [DecidableEq α] : List (α × β) → α → List (α × β)
  | [], _ => []
  | (k, v) :: rest, key =>
      if k = key then removeEntry rest key else (k, v) :: removeEntry rest key

/-- Number of entries an association list holds for a given key. -/
def countKey {α β : Type} [DecidableEq α] : List (α × β) → α → Nat
  | [], _ => 0
  | (k, _) :: rest, key => (if k = key then 1 else 0) + countKey rest key

/-- The `for (key, sig) in proof` loop of `verify_proofs`: decodes each
signature and public key (a decode failure is a structural `Err`), checks the
signature (`return Ok(false)` on a bad one, modelled as `.ok none`) and
otherwise counts the pair.  `count` is the running `proof_count`. -/
def processPairs (sv : SigVerify) (event : H256) :
    List (CryptoTypePublicPair × Bytes) → Nat → Except String (Option Nat)
  | [], count => .ok (some count)
  | (key, sig) :: rest, count =>
    match decodeSig sig with
    | none => .error "bad signature"
    | some signature =>
      match decodePub key.2 with
      | none => .error "bad public key"
      | some pubkey =>
        if sv pubkey event signature then processPairs sv event rest (count + 1)
        else .ok none

/-- The body of `verify_proofs` for one outstanding event: missing entry is
`Ok(false)`; a proof key outside the authority set is `Ok(false)` (checked
before any decoding); then the pair loop runs and the final count, taken as a
`u16`, is compared against the target. -/
def verifyEvent (sv : SigVerify) (target : Nat) (authorities : List CryptoTypePublicPair)
    (proofs : ProofsMap) (event : H256) : Except String Bool :=
  match lookupA proofs event with
  | none => .ok false
  | some proof =>
    if proof.all (fun kv => decide (kv.1 ∈ authorities)) then
      match processPairs sv event proof 0 with
      | .error e => .error e
      | .ok none => .ok false
      | .ok (some count) => if count % 65536 < target then .ok false else .ok true
    else .ok false

/-- The `for event in unwitnessed_events` loop of `verify_proofs`: the first
event failing yields `Ok(false)` (or the structural `Err`), success continues. -/
def verifyEvents (sv : SigVerify) (target : Nat) (authorities : List CryptoTypePublicPair)
    (proofs : ProofsMap) : List H256 → Except String Bool
  | [] => .ok true
  | event :: rest =>
    match verifyEvent sv target authorities proofs event with
    | .error e => .error e
    | .ok false => .ok false
    | .ok true => verifyEvents sv target authorities proofs rest

/-- `DefferedBlocks::verify_proofs`, with the authority set already resolved
from the runtime.  The target is `(2 * ((authorities.len() - 1) / 3) + 1) as u16`;
`authorities.len() - 1` is an unsigned subtraction, so the empty authority set
hits the panic branch, modelled as `none`. -/
def verify_proofs (sv : SigVerify) (proofs : ProofsMap) (unwitnessed_events : List H256)
    (authorities : List CryptoTypePublicPair) : Option (Except String Bool) :=
  if authorities.length = 0 then none
  else
    some (verifyEvents sv ((2 * ((authorities.length - 1) / 3) + 1) % 65536)
      authorities proofs unwitnessed_events)

/-- The shared state of `DefferedBlocks`: the deferred-block map `inner` and
the late-bound DHT handle `network_service` (its identity does not matter,
only whether it is bound). -/
structure DefferState where
  inner : List (H256 × List H256)
  network_service : Option Unit
deriving DecidableEq

/-- Outcome of `deffer_block`: the new state, the `get_value` requests issued
to the DHT (by Kademlia key, which is the raw block hash), and whether the
informational "Deffered Block" log line fired. -/
structure DefferResult where
  state : DefferState
  requests : List H256
  loggedDefer : Bool
deriving DecidableEq

/-- `DefferedBlocks::deffer_block`: with the DHT bound, it inserts (replacing
any previous entry for the hash), logs only when the hash was absent, and
always issues `get_value`; with the DHT unbound it only logs an error. -/
def deffer_block (st : DefferState) (block_hash : H256) (unwitnessed_events : List H256) :
    DefferResult :=
  match st.network_service with
  | some _ =>
    { state := { inner := updateEntry st.inner block_hash unwitnessed_events,
                 network_service := st.network_service },
      requests := [block_hash],
      loggedDefer := (lookupA st.inner block_hash).isNone }
  | none => { state := st, requests := [], loggedDefer := false }

/-- The state threaded through `handle_found_proofs`: the deferred-block map
and the `EventProofs` store (modelled as the list of successfully merged
bundles). -/
structure HandleResult where
  blocks : List (H256 × List H256)
  store : List ProofsMap
deriving DecidableEq

/-- The external `EventProofs::add_events_proofs` operation. -/
abbrev StoreAdd : Type := List ProofsMap → ProofsMap → Except String (List ProofsMap)

/-- One iteration of the `for value in values` loop of `handle_found_proofs`:
keys that are not 32 bytes are skipped; absent deferred entries are ignored;
bincode failures are skipped; a verification `Err` is ignored; only a
verification success merges the bundle (the store error is discarded by
`.ok()`) and removes the deferred entry.  The `none` result is the
propagated `verify_proofs` panic. -/
def processValue (sv : SigVerify) (deserialize : Bytes → Option ProofsMap) (add : StoreAdd)
    (authorities : List CryptoTypePublicPair) (acc : HandleResult) (kv : Bytes × Bytes) :
    Option HandleResult :=
  if h : kv.1.length = 32 then
    let deserialized_key : H256 := ⟨kv.1, h⟩
    match lookupA acc.blocks deserialized_key with
    | some unwitnessed_events =>
      match deserialize kv.2 with
      | some proofs =>
        match verify_proofs sv proofs unwitnessed_events authorities with
        | none => none
        | some (.ok true) =>
          let store2 := match add acc.store proofs with
            | .ok s => s
            | .error _ => acc.store
          some { blocks := removeEntry acc.blocks deserialized_key, store := store2 }
        | some (.ok false) => some acc
        | some (.error _) => some acc
      | none => some acc
    | none => some acc
  else some acc

/-- `DefferedBlocks::handle_found_proofs`, folded over the list of found
`(KademliaKey, value)` pairs delivered by the DHT event. -/
def handle_found_proofs (sv : SigVerify) (deserialize : Bytes → Option ProofsMap)
    (add : StoreAdd) (authorities : List CryptoTypePublicPair) :
    List (Bytes × Bytes) → HandleResult → Option HandleResult
  | [], acc => some acc
  | kv :: rest, acc =>
    match processValue sv deserialize add authorities acc kv with
    | none => none
    | some acc2 => handle_found_proofs sv deserialize add authorities rest acc2

/-- `WitnessBlockImport::provide_block_proofs`: with the DHT bound, fetch the
proofs from the store and `put_value` their serialization under the block
hash; store or serialization failures publish nothing; with the DHT unbound,
log and skip.  The result is the list of `put_value` requests. -/
def provide_block_proofs (st : DefferState) (getProofs : Except String ProofsMap)
    (serialize : ProofsMap → Except String Bytes) (block_hash : H256) :
    List (H256 × Bytes) :=
  match st.network_service with
  | some _ =>
    match getProofs with
    | .ok proofs =>
      match serialize proofs with
      | .ok value => [(block_hash, value)]
      | .error _ => []
    | .error _ => []
  | none => []

/-- Outcome of `import_block`: the import result (the inner stage's
`ImportResult` is opaque, modelled as `Nat`), the deferred-block state, and
the DHT `get_value` / `put_value` requests issued. -/
structure ImportOutput where
  result : Except String Nat
  state : DefferState
  getRequests : List H256
  putRequests : List (H256 × Bytes)
deriving DecidableEq

/-- `WitnessBlockImport::import_block`.  `hasBody` is whether `block.body` is
`Some`; `extrinsicIds` is the runtime's `get_extrinsic_ids` answer, whose
error is swallowed by `.ok().unwrap_or_default()`; `verifyEventsValidity` is
`EventService::verify_events_validity` (the unwitnessed-events check), whose
error is returned as an import error; `innerResult` is the inner stage's
answer on this block. -/
def import_block (hasBody : Bool) (extrinsicIds : Except String (List H256))
    (verifyEventsValidity : List H256 → Except String (List H256))
    (innerResult : Except String Nat)
    (getProofs : Except String ProofsMap) (serialize : ProofsMap → Except String Bytes)
    (st : DefferState) (block_hash : H256) : ImportOutput :=
  if hasBody then
    let event_ids := match extrinsicIds with
      | .ok ids => ids
      | .error _ => []
    match verifyEventsValidity event_ids with
    | .ok unwitnessed_ids =>
      if unwitnessed_ids.isEmpty then
        match innerResult with
        | .ok r =>
          { result := .ok r, state := st, getRequests := [],
            putRequests := provide_block_proofs st getProofs serialize block_hash }
        | .error e =>
          { result := .error e, state := st, getRequests := [], putRequests := [] }
      else
        let d := deffer_block st block_hash unwitnessed_ids
        { result := .error "block contains unwitnessed events", state := d.state,
          getRequests := d.requests, putRequests := [] }
    | .error e => { result := .error e, state := st, getRequests := [], putRequests := [] }
  else
    { result := innerResult, state := st, getRequests := [], putRequests := [] }

/-- A concrete 32-byte hash with every byte equal to `n`. -/
def h256 (n : Nat) : H256 := ⟨List.replicate 32 n, by simp⟩

/-- Concrete public-key bytes (32 bytes, every byte `n`). -/
def pubBytes (n : Nat) : Bytes := List.replicate 32 n

/-- A concrete authority: sr25519 crypto-type id `0` with key bytes `pubBytes n`. -/
def pairA (n : Nat) : CryptoTypePublicPair := (0, pubBytes n)

/-- A concrete well-formed (64-byte) signature string. -/
def sig64 : Bytes := List.replicate 64 1

/-- The always-accepting signature oracle, for concrete evaluations. -/
def svAll : SigVerify := fun _ _ _ => true

/-! ## Association-list lemmas -/

theorem lookupA_updateEntry_self {α β : Type} [DecidableEq α] (m : List (α × β)) (k : α) (v : β) :
    lookupA (updateEntry m k v) k = some v := by
  induction m with
  | nil => simp [updateEntry, lookupA]
  | cons hd rest ih =>
    obtain ⟨k', w⟩ := hd
    by_cases hk : k' = k
    · simp [updateEntry, lookupA, hk]
    · simp [updateEntry, lookupA, hk, ih]

theorem countKey_updateEntry {α β : Type} [DecidableEq α] (m : List (α × β)) (k : α) (v w : β)
    (h : lookupA m k = some w) : countKey (updateEntry m k v) k = countKey m k := by
  induction m with
  | nil => simp [lookupA] at h
  | cons hd rest ih =>
    obtain ⟨k', x⟩ := hd
    by_cases hk : k' = k
    · simp [updateEntry, countKey, hk]
    · simp only [lookupA, if_neg hk] at h
      simp [updateEntry, countKey, hk, ih h]

theorem lookupA_removeEntry_self {α β : Type} [DecidableEq α] (m : List (α × β)) (k : α) :
    lookupA (removeEntry m k) k = none := by
  induction m with
  | nil => simp [removeEntry, lookupA]
  | cons hd rest ih =>
    obtain ⟨k', x⟩ := hd
    by_cases hk : k' = k
    · simp [removeEntry, hk, ih]
    · simp [removeEntry, lookupA, hk, ih]

/-! ## Lemmas about the pair loop and event loop of `verify_proofs` -/

theorem processPairs_valid (sv : SigVerify) (e : H256) :
    ∀ (pairs : List (CryptoTypePublicPair × Bytes)) (c : Nat),
      (∀ p ∈ pairs, p.2.length = 64 ∧ p.1.2.length = 32 ∧ sv p.1.2 e p.2 = true) →
      processPairs sv e pairs c = .ok (some (c + pairs.length))
  | [], c, _ => by simp [processPairs]
  | (key, sig) :: rest, c, h => by
    obtain ⟨h64, h32, hsv⟩ := h (key, sig) (List.mem_cons_self _ _)
    have ihr := processPairs_valid sv e rest (c + 1) fun p hp => h p (List.mem_cons_of_mem _ hp)
    simp only [processPairs, decodeSig, decodePub, h64, h32, if_pos, hsv, if_true, ihr,
      List.length_cons]
    congr 2
    omega

theorem processPairs_decode_fail (sv : SigVerify) (e : H256) :
    ∀ (pairs : List (CryptoTypePublicPair × Bytes)) (c : Nat),
      (∀ p ∈ pairs, p.2.length = 64 → p.1.2.length = 32 → sv p.1.2 e p.2 = true) →
      (∃ p ∈ pairs, ¬p.2.length = 64 ∨ ¬p.1.2.length = 32) →
      ∃ msg, processPairs sv e pairs c = .error msg
  | [], _, _, hbad => by simp at hbad
  | (key, sig) :: rest, c, hgood, hbad => by
    by_cases h64 : sig.length = 64
    · by_cases h32 : key.2.length = 32
      · have hsv := hgood (key, sig) (List.mem_cons_self _ _) h64 h32
        have hrest : ∃ p ∈ rest, ¬p.2.length = 64 ∨ ¬p.1.2.length = 32 := by
          obtain ⟨p, hp, hb⟩ := hbad
          rcases List.mem_cons.mp hp with heq | hmem
          · subst heq; simp [h64, h32] at hb
          · exact ⟨p, hmem, hb⟩
        obtain ⟨msg, hmsg⟩ := processPairs_decode_fail sv e rest (c + 1)
          (fun p hp => hgood p (List.mem_cons_of_mem _ hp)) hrest
        exact ⟨msg, by simp [processPairs, decodeSig, decodePub, h64, h32, hsv, hmsg]⟩
      · exact ⟨"bad public key", by simp [processPairs, decodeSig, decodePub, h64, h32]⟩
    · exact ⟨"bad signature", by simp [processPairs, decodeSig, h64]⟩

theorem verifyEvent_valid (sv : SigVerify) (t : Nat) (auth : List CryptoTypePublicPair)
    (proofs : ProofsMap) (e : H256) (pairs : List (CryptoTypePublicPair × Bytes))
    (hl : lookupA proofs e = some pairs)
    (hv : ∀ p ∈ pairs, p.1 ∈ auth ∧ p.2.length = 64 ∧ p.1.2.length = 32 ∧ sv p.1.2 e p.2 = true) :
    verifyEvent sv t auth proofs e = .ok (decide (t ≤ pairs.length % 65536)) := by
  have hall : pairs.all (fun kv => decide (kv.1 ∈ auth)) = true :=
    List.all_eq_true.mpr fun p hp => decide_eq_true_eq.mpr (hv p hp).1
  have hcount := processPairs_valid sv e pairs 0 fun p hp => (hv p hp).2
  simp only [verifyEvent, hl, hall, if_true, hcount, Nat.zero_add]
  by_cases hlt : pairs.length % 65536 < t
  · simp [hlt, Nat.not_le.mpr hlt]
  · simp [hlt, Nat.not_lt.mp hlt]

theorem verifyEvents_valid (sv : SigVerify) (t : Nat) (auth : List CryptoTypePublicPair)
    (proofs : ProofsMap) :
    ∀ events : List H256,
      (∀ e ∈ events, ∃ pairs, lookupA proofs e = some pairs ∧
        ∀ p ∈ pairs, p.1 ∈ auth ∧ p.2.length = 64 ∧ p.1.2.length = 32 ∧ sv p.1.2 e p.2 = true) →
      verifyEvents sv t auth proofs events =
        .ok (events.all fun e => decide (t ≤ ((lookupA proofs e).getD []).length % 65536))
  | [], _ => by simp [verifyEvents]
  | e :: rest, h => by
    obtain ⟨pairs, hl, hv⟩ := h e (List.mem_cons_self _ _)
    have hev := verifyEvent_valid sv t auth proofs e pairs hl hv
    have ihr := verifyEvents_valid sv t auth proofs rest
      fun e' he' => h e' (List.mem_cons_of_mem _ he')
    cases hd : decide (t ≤ pairs.length % 65536) with
    | false => simp [verifyEvents, hev, hd, List.all_cons, hl]
    | true => simp [verifyEvents, hev, hd, ihr, List.all_cons, hl]

/-! ## Claim C8 -/

/-- C8: `verify_proofs` is only well-defined for a non-empty authority set:
the threshold computation `authorities.len() - 1` underflows for an empty
authority set (the `none` / panic branch of the embedding), and under the
precondition that the resolved authority set is non-empty that branch is
unreachable. -/
theorem c8_empty_authorities_underflow (sv : SigVerify) (proofs : ProofsMap)
    (events : List H256) (auth : List CryptoTypePublicPair) :
    (auth = [] → verify_proofs sv proofs events auth = none) ∧
    (auth ≠ [] → (verify_proofs sv proofs events auth).isSome = true) := by
  constructor
  · intro h; subst h; rfl
  · intro h
    unfold verify_proofs
    rw [if_neg fun h0 => h (List.length_eq_zero.mp h0)]
    rfl

/-- Witness for C8 at concrete inputs: the empty authority set hits the panic
branch, a singleton authority set does not. -/
theorem c8_empty_authorities_underflow_witness :
    verify_proofs svAll [] [] [] = none ∧
    (verify_proofs svAll [] [] [pairA 0]).isSome = true :=
  ⟨(c8_empty_authorities_underflow svAll [] [] []).1 rfl,
   (c8_empty_authorities_underflow svAll [] [] [pairA 0]).2 (by decide)⟩

/-! ## Claim C10 -/

/-- C10: for every proof bundle and non-empty authority set, `verify_proofs`
with an empty outstanding-event list returns `Ok(true)` vacuously, without
inspecting the bundle's contents (the bundle is universally quantified). -/
theorem c10_empty_outstanding_vacuous (sv : SigVerify) (proofs : ProofsMap)
    (auth : List CryptoTypePublicPair) (h : auth ≠ []) :
    verify_proofs sv proofs [] auth = some (.ok true) := by
  unfold verify_proofs
  rw [if_neg fun h0 => h (List.length_eq_zero.mp h0)]
  rfl

/-- Witness for C10: a non-empty bundle, never inspected. -/
theorem c10_empty_outstanding_vacuous_witness :
    verify_proofs svAll [(h256 3, [(pairA 9, [])])] [] [pairA 0] = some (.ok true) :=
  c10_empty_outstanding_vacuous svAll [(h256 3, [(pairA 9, [])])] [pairA 0] (by decide)

/-! ## Claim C1 -/

/-- C1 counterexample: with six authorities the spec's threshold
`floor(2*(N-1)/3) + 1` is `4`, but `verify_proofs` accepts an event carrying
only `3` valid authorized signatures, because the code computes
`2*floor((N-1)/3) + 1 = 3`.  So a count below the claimed threshold does not
make verification return false. -/
theorem c1_counterexample :
    2 * (6 - 1) / 3 + 1 = 4 ∧
    ([(pairA 0, sig64), (pairA 1, sig64), (pairA 2, sig64)] :
      List (CryptoTypePublicPair × Bytes)).length < 4 ∧
    verify_proofs svAll
      [(h256 10, [(pairA 0, sig64), (pairA 1, sig64), (pairA 2, sig64)])]
      [h256 10] [pairA 0, pairA 1, pairA 2, pairA 3, pairA 4, pairA 5] =
      some (.ok true) := by
  refine ⟨by decide, by decide, ?_⟩
  decide

/-- C1 (amended): the quorum threshold computed and enforced by
`verify_proofs` for an authority set of size `N ≥ 1` is
`(2*floor((N-1)/3) + 1) mod 2^16` (the `as u16` cast), not
`floor(2*(N-1)/3) + 1`: when every outstanding event carries only valid,
authorized, well-encoded signatures, verification succeeds exactly when every
event's signature count (as a `u16`) reaches that threshold, and fails when
some event's count is below it. -/
theorem c1_threshold_amended (sv : SigVerify) (proofs : ProofsMap)
    (auth : List CryptoTypePublicPair) (events : List H256) (hauth : auth ≠ [])
    (hval : ∀ e ∈ events, ∃ pairs, lookupA proofs e = some pairs ∧
      ∀ p ∈ pairs, p.1 ∈ auth ∧ p.2.length = 64 ∧ p.1.2.length = 32 ∧ sv p.1.2 e p.2 = true) :
    verify_proofs sv proofs events auth =
      some (.ok (events.all fun e =>
        decide ((2 * ((auth.length - 1) / 3) + 1) % 65536 ≤
          ((lookupA proofs e).getD []).length % 65536))) := by
  unfold verify_proofs
  rw [if_neg fun h0 => hauth (List.length_eq_zero.mp h0)]
  exact congrArg some (verifyEvents_valid sv _ auth proofs events hval)

/-- Witness for C1 (amended): four authorities, threshold `3`, one event with
exactly three valid signatures passes. -/
theorem c1_threshold_amended_witness :
    verify_proofs svAll
      [(h256 10, [(pairA 0, sig64), (pairA 1, sig64), (pairA 2, sig64)])]
      [h256 10] [pairA 0, pairA 1, pairA 2, pairA 3] = some (.ok true) := by
  have h := c1_threshold_amended svAll
    [(h256 10, [(pairA 0, sig64), (pairA 1, sig64), (pairA 2, sig64)])]
    [pairA 0, pairA 1, pairA 2, pairA 3] [h256 10] (by decide) ?_
  · rw [h]; decide
  · intro e he
    rw [List.mem_singleton] at he
    subst he
    exact ⟨[(pairA 0, sig64), (pairA 1, sig64), (pairA 2, sig64)], by decide, by decide⟩

/-! ## Claim C3 -/

/-- C3 counterexample: the bundle holds, under outstanding event `h256 11`, a
signature from `pairA 9`, which is not in the authority set `[pairA 0]` — the
claim's hypothesis — yet `verify_proofs` returns the structural error raised
while scanning the earlier event `h256 10` (whose signature is 63 bytes), not
`Ok(false)`. -/
theorem c3_counterexample :
    (pairA 9 : CryptoTypePublicPair) ∉ [pairA 0] ∧
    lookupA [(h256 10, [(pairA 0, List.replicate 63 1)]), (h256 11, [(pairA 9, sig64)])]
      (h256 11) = some [(pairA 9, sig64)] ∧
    verify_proofs svAll
      [(h256 10, [(pairA 0, List.replicate 63 1)]), (h256 11, [(pairA 9, sig64)])]
      [h256 10, h256 11] [pairA 0] = some (.error "bad signature") := by
  refine ⟨by decide, by decide, ?_⟩
  decide

/-- C3 (amended): if the bundle's entry for the *first* outstanding event
contains a (validator, signature) pair whose validator key is not a member of
the authority set, then `verify_proofs` returns `Ok(false)` for the whole
bundle, regardless of how many other valid authorized signatures that event
has (the membership scan runs before any decoding or signature checking). -/
theorem c3_unauthorized_first_event_amended (sv : SigVerify) (proofs : ProofsMap)
    (auth : List CryptoTypePublicPair) (e : H256) (rest : List H256)
    (pairs : List (CryptoTypePublicPair × Bytes)) (p : CryptoTypePublicPair × Bytes)
    (hauth : auth ≠ []) (hl : lookupA proofs e = some pairs) (hp : p ∈ pairs)
    (hk : p.1 ∉ auth) :
    verify_proofs sv proofs (e :: rest) auth = some (.ok false) := by
  unfold verify_proofs
  rw [if_neg fun h0 => hauth (List.length_eq_zero.mp h0)]
  have hall : pairs.all (fun kv => decide (kv.1 ∈ auth)) = false := by
    rcases hb : pairs.all (fun kv => decide (kv.1 ∈ auth)) with _ | _
    · rfl
    · exact absurd (decide_eq_true_eq.mp (List.all_eq_true.mp hb p hp)) hk
  simp [verifyEvents, verifyEvent, hl, hall]

/-- Witness for C3 (amended): one unauthorized pair among two otherwise valid
authorized signatures for the same event still yields `Ok(false)`. -/
theorem c3_unauthorized_first_event_amended_witness :
    verify_proofs svAll
      [(h256 10, [(pairA 0, sig64), (pairA 9, sig64), (pairA 1, sig64)])]
      [h256 10] [pairA 0, pairA 1] = some (.ok false) :=
  c3_unauthorized_first_event_amended svAll
    [(h256 10, [(pairA 0, sig64), (pairA 9, sig64), (pairA 1, sig64)])]
    [pairA 0, pairA 1] (h256 10) []
    [(pairA 0, sig64), (pairA 9, sig64), (pairA 1, sig64)] (pairA 9, sig64)
    (by decide) (by decide) (by decide) (by decide)

/-! ## Claim C4 -/

/-- C4 counterexample: the pair under the outstanding event has a 63-byte
signature that cannot be decoded — the claim's hypothesis — yet
`verify_proofs` returns `Ok(false)`, not an `Err`, because the unauthorized
validator key is noticed before any decoding takes place. -/
theorem c4_counterexample :
    decodeSig (List.replicate 63 1) = none ∧
    verify_proofs svAll [(h256 10, [(pairA 9, List.replicate 63 1)])]
      [h256 10] [pairA 0] = some (.ok false) := by
  refine ⟨by decide, ?_⟩
  decide

/-- C4 (amended): malformed encodings are reported as a structural `Err`
provided they are actually reached: if the bundle's entry for the first
outstanding event has all its validator keys inside the authority set, every
pair that does decode carries a correctly verifying signature, and at least
one pair has a signature or public key of the wrong byte length, then
`verify_proofs` returns an `Err`, never `Ok(false)`. -/
theorem c4_malformed_encoding_amended (sv : SigVerify) (proofs : ProofsMap)
    (auth : List CryptoTypePublicPair) (e : H256) (rest : List H256)
    (pairs : List (CryptoTypePublicPair × Bytes)) (hauth : auth ≠ [])
    (hl : lookupA proofs e = some pairs)
    (hmem : ∀ p ∈ pairs, p.1 ∈ auth)
    (hgood : ∀ p ∈ pairs, p.2.length = 64 → p.1.2.length = 32 → sv p.1.2 e p.2 = true)
    (hbad : ∃ p ∈ pairs, ¬p.2.length = 64 ∨ ¬p.1.2.length = 32) :
    ∃ msg, verify_proofs sv proofs (e :: rest) auth = some (.error msg) := by
  obtain ⟨msg, hmsg⟩ := processPairs_decode_fail sv e pairs 0 hgood hbad
  refine ⟨msg, ?_⟩
  unfold verify_proofs
  rw [if_neg fun h0 => hauth (List.length_eq_zero.mp h0)]
  have hall : pairs.all (fun kv => decide (kv.1 ∈ auth)) = true :=
    List.all_eq_true.mpr fun p hp => decide_eq_true_eq.mpr (hmem p hp)
  simp [verifyEvents, verifyEvent, hl, hall, hmsg]

/-- Witness for C4 (amended): an authorized pair whose signature is 63 bytes
long produces a structural error. -/
theorem c4_malformed_encoding_amended_witness :
    ∃ msg, verify_proofs svAll [(h256 10, [(pairA 0, List.replicate 63 9)])]
      [h256 10] [pairA 0] = some (.error msg) :=
  c4_malformed_encoding_amended svAll [(h256 10, [(pairA 0, List.replicate 63 9)])]
    [pairA 0] (h256 10) [] [(pairA 0, List.replicate 63 9)]
    (by decide) (by decide) (by decide) (by decide) (by decide)

/-! ## Claim C2 -/

/-- C2 counterexample: the registry already holds `(h256 0 ↦ [h256 1])` and
the network handle is bound; calling `deffer_block` again for `h256 0` with
`[h256 2]` *replaces* the stored outstanding list and issues *another*
`get_value` request to the DHT, contradicting the claimed no-op. -/
theorem c2_counterexample :
    lookupA (deffer_block ⟨[(h256 0, [h256 1])], some ()⟩ (h256 0) [h256 2]).state.inner
      (h256 0) = some [h256 2] ∧
    (some [h256 2] : Option (List H256)) ≠ some [h256 1] ∧
    (deffer_block ⟨[(h256 0, [h256 1])], some ()⟩ (h256 0) [h256 2]).requests = [h256 0] := by
  refine ⟨?_, by decide, by decide⟩
  decide

/-- C2 (amended): calling `deffer_block` a second time while a deferred entry
for that hash is already present (network handle bound) still leaves the
registry with exactly one entry for that hash, but it *overwrites* the stored
outstanding-event list with the newly passed one, skips only the
informational "Deffered Block" log line, and *does* issue another `get_value`
lookup request to the network. -/
theorem c2_duplicate_defer_amended (st : DefferState) (h : H256) (evs0 evs : List H256)
    (hn : st.network_service = some ()) (hl : lookupA st.inner h = some evs0)
    (hc : countKey st.inner h = 1) :
    lookupA (deffer_block st h evs).state.inner h = some evs ∧
    countKey (deffer_block st h evs).state.inner h = 1 ∧
    (deffer_block st h evs).requests = [h] ∧
    (deffer_block st h evs).loggedDefer = false := by
  unfold deffer_block
  rw [hn]
  refine ⟨lookupA_updateEntry_self st.inner h evs, ?_, rfl, ?_⟩
  · rw [countKey_updateEntry st.inner h evs evs0 hl]
    exact hc
  · simp [hl]

/-- Witness for C2 (amended) at a concrete duplicated defer call. -/
theorem c2_duplicate_defer_amended_witness :
    lookupA (deffer_block ⟨[(h256 5, [h256 1])], some ()⟩ (h256 5)
      [h256 2, h256 3]).state.inner (h256 5) = some [h256 2, h256 3] ∧
    countKey (deffer_block ⟨[(h256 5, [h256 1])], some ()⟩ (h256 5)
      [h256 2, h256 3]).state.inner (h256 5) = 1 ∧
    (deffer_block ⟨[(h256 5, [h256 1])], some ()⟩ (h256 5)
      [h256 2, h256 3]).requests = [h256 5] ∧
    (deffer_block ⟨[(h256 5, [h256 1])], some ()⟩ (h256 5)
      [h256 2, h256 3]).loggedDefer = false :=
  c2_duplicate_defer_amended ⟨[(h256 5, [h256 1])], some ()⟩ (h256 5) [h256 1]
    [h256 2, h256 3] rfl (by decide) (by decide)

/-! ## Claims C6 and C9 -/

/-- C6: for a value-found notification whose key decodes to a deferred block
hash and whose bundle deserializes, if quorum verification against that
entry's outstanding events succeeds then the bundle is merged into the proof
store and the deferred entry is removed; if verification returns `Ok(false)`
or an `Err`, the registry and store are left unchanged. -/
theorem c6_found_proofs_verification (sv : SigVerify)
    (deserialize : Bytes → Option ProofsMap) (add : StoreAdd)
    (auth : List CryptoTypePublicPair) (key value : Bytes) (hk : key.length = 32)
    (blocks : List (H256 × List H256)) (store : List ProofsMap)
    (evs : List H256) (proofs : ProofsMap)
    (hl : lookupA blocks (⟨key, hk⟩ : H256) = some evs)
    (hd : deserialize value = some proofs) :
    (∀ store2, verify_proofs sv proofs evs auth = some (.ok true) →
      add store proofs = .ok store2 →
      handle_found_proofs sv deserialize add auth [(key, value)] ⟨blocks, store⟩ =
        some ⟨removeEntry blocks ⟨key, hk⟩, store2⟩ ∧
      lookupA (removeEntry blocks (⟨key, hk⟩ : H256)) ⟨key, hk⟩ = none) ∧
    (∀ r, verify_proofs sv proofs evs auth = some r → r ≠ .ok true →
      handle_found_proofs sv deserialize add auth [(key, value)] ⟨blocks, store⟩ =
        some ⟨blocks, store⟩) := by
  constructor
  · intro store2 hver hadd
    refine ⟨?_, lookupA_removeEntry_self blocks _⟩
    simp only [handle_found_proofs, processValue, dif_pos hk, hl, hd, hver, hadd]
  · intro r hver hne
    match r with
    | .ok true => exact absurd rfl hne
    | .ok false => simp only [handle_found_proofs, processValue, dif_pos hk, hl, hd, hver]
    | .error m => simp only [handle_found_proofs, processValue, dif_pos hk, hl, hd, hver]

/-- Witness for C6: a found bundle with one valid signature against a
one-authority set removes the deferred entry and merges the bundle. -/
theorem c6_found_proofs_verification_witness :
    handle_found_proofs svAll (fun _ => some [(h256 20, [(pairA 0, sig64)])])
      (fun s p => .ok (p :: s)) [pairA 0] [(pubBytes 10, [])]
      ⟨[(h256 10, [h256 20])], []⟩ =
      some ⟨removeEntry [(h256 10, [h256 20])] (h256 10), [[(h256 20, [(pairA 0, sig64)])]]⟩ ∧
    lookupA (removeEntry [(h256 10, [h256 20])] (h256 10)) (h256 10) = none :=
  (c6_found_proofs_verification svAll (fun _ => some [(h256 20, [(pairA 0, sig64)])])
    (fun s p => .ok (p :: s)) [pairA 0] (pubBytes 10) [] (by decide)
    [(h256 10, [h256 20])] [] [h256 20] [(h256 20, [(pairA 0, sig64)])]
    (by decide) rfl).1 [[(h256 20, [(pairA 0, sig64)])]] (by decide) rfl

/-- C9: when verification of a found bundle succeeds, the deferred entry is
removed from the registry unconditionally — even if adding the bundle to the
proof store returns an error, that error is discarded (`.ok()`) and the entry
is still removed, so removal is not atomic with a successful store merge. -/
theorem c9_removal_despite_store_error (sv : SigVerify)
    (deserialize : Bytes → Option ProofsMap) (add : StoreAdd)
    (auth : List CryptoTypePublicPair) (key value : Bytes) (hk : key.length = 32)
    (blocks : List (H256 × List H256)) (store : List ProofsMap)
    (evs : List H256) (proofs : ProofsMap) (msg : String)
    (hl : lookupA blocks (⟨key, hk⟩ : H256) = some evs)
    (hd : deserialize value = some proofs)
    (hver : verify_proofs sv proofs evs auth = some (.ok true))
    (hadd : add store proofs = .error msg) :
    handle_found_proofs sv deserialize add auth [(key, value)] ⟨blocks, store⟩ =
      some ⟨removeEntry blocks ⟨key, hk⟩, store⟩ ∧
    lookupA (removeEntry blocks (⟨key, hk⟩ : H256)) ⟨key, hk⟩ = none := by
  refine ⟨?_, lookupA_removeEntry_self blocks _⟩
  simp only [handle_found_proofs, processValue, dif_pos hk, hl, hd, hver, hadd]

/-- Witness for C9: the store rejects the bundle, yet the deferred entry is
removed and the store left as it was. -/
theorem c9_removal_despite_store_error_witness :
    handle_found_proofs svAll (fun _ => some [(h256 20, [(pairA 0, sig64)])])
      (fun _ _ => .error "store failure") [pairA 0] [(pubBytes 10, [])]
      ⟨[(h256 10, [h256 20])], []⟩ =
      some ⟨removeEntry [(h256 10, [h256 20])] (h256 10), []⟩ ∧
    lookupA (removeEntry [(h256 10, [h256 20])] (h256 10)) (h256 10) = none :=
  c9_removal_despite_store_error svAll (fun _ => some [(h256 20, [(pairA 0, sig64)])])
    (fun _ _ => .error "store failure") [pairA 0] (pubBytes 10) [] (by decide)
    [(h256 10, [h256 20])] [] [h256 20] [(h256 20, [(pairA 0, sig64)])] "store failure"
    (by decide) rfl (by decide) rfl

/-! ## Claim C5 -/

/-- C5 counterexample: the unwitnessed-events check (the Event Extraction
Service's determination of the block's outstanding events,
`EventService::verify_events_validity`) fails, and `import_block` returns
that error instead of delegating: the inner stage would have answered
`Ok(0)`, but the import is rejected. -/
theorem c5_counterexample :
    (import_block true (.ok [h256 1]) (fun _ => .error "event check failed") (.ok 0)
      (.ok []) (fun _ => .ok []) ⟨[], some ()⟩ (h256 0)).result =
      .error "event check failed" ∧
    (.error "event check failed" : Except String Nat) ≠ .ok 0 := by
  refine ⟨?_, by decide⟩
  decide

/-- C5 (amended): only a failure of the event-id extraction call
(`get_extrinsic_ids`) is treated permissively: `import_block` then proceeds
with an empty event-id list, and provided the unwitnessed-events check on
that empty list succeeds with an empty result, a successful inner import is
delegated unchanged (no defer, no lookup request).  A failure of the
unwitnessed-events check itself is surfaced as an import error, not treated
as "no outstanding events". -/
theorem c5_extraction_failure_amended (msg : String)
    (verifyEventsValidity : List H256 → Except String (List H256))
    (innerResult : Except String Nat) (getProofs : Except String ProofsMap)
    (serialize : ProofsMap → Except String Bytes) (st : DefferState) (bh : H256) :
    (∀ r, verifyEventsValidity [] = .ok [] → innerResult = .ok r →
      import_block true (.error msg) verifyEventsValidity innerResult getProofs serialize
        st bh =
        ⟨.ok r, st, [], provide_block_proofs st getProofs serialize bh⟩) ∧
    (∀ m2, verifyEventsValidity [] = .error m2 →
      import_block true (.error msg) verifyEventsValidity innerResult getProofs serialize
        st bh = ⟨.error m2, st, [], []⟩) := by
  constructor
  · intro r hv hi
    subst hi
    simp only [import_block, if_true, hv, List.isEmpty_nil, if_pos]
  · intro m2 hv
    simp only [import_block, if_true, hv]

/-- Witness for C5 (amended): extraction fails, the empty-list check comes
back empty, the inner stage succeeds, and the import succeeds unchanged. -/
theorem c5_extraction_failure_amended_witness :
    import_block true (.error "extraction failed") (fun _ => .ok []) (.ok 7)
      (.ok []) (fun _ => .ok []) ⟨[], none⟩ (h256 0) =
      ⟨.ok 7, ⟨[], none⟩, [],
        provide_block_proofs ⟨[], none⟩ (.ok []) (fun _ => .ok []) (h256 0)⟩ :=
  (c5_extraction_failure_amended "extraction failed" (fun _ => .ok []) (.ok 7)
    (.ok []) (fun _ => .ok []) ⟨[], none⟩ (h256 0)).1 7 rfl rfl

/-! ## Claim C7 -/

/-- C7: for a block with no outstanding events whose inner-stage import
succeeds, `import_block` returns that success even when the lookup-network
handle is unbound: proof publication is skipped (no `put_value` request) and
never turns the successful import into a failure. -/
theorem c7_publication_best_effort (extrinsicIds : Except String (List H256))
    (verifyEventsValidity : List H256 → Except String (List H256))
    (getProofs : Except String ProofsMap) (serialize : ProofsMap → Except String Bytes)
    (st : DefferState) (bh : H256) (ids : List H256) (r : Nat)
    (hn : st.network_service = none)
    (hi : extrinsicIds = .ok ids) (hv : verifyEventsValidity ids = .ok []) :
    import_block true extrinsicIds verifyEventsValidity (.ok r) getProofs serialize st bh =
      ⟨.ok r, st, [], []⟩ := by
  subst hi
  simp only [import_block, if_true, hv, List.isEmpty_nil, if_pos, provide_block_proofs, hn]

/-- Witness for C7: DHT unbound, inner import succeeds, publication skipped. -/
theorem c7_publication_best_effort_witness :
    import_block true (.ok [h256 1]) (fun _ => .ok []) (.ok 4)
      (.ok [[(h256 1, [(pairA 0, sig64)])]].head!) (fun _ => .ok [0, 1])
      ⟨[(h256 9, [h256 8])], none⟩ (h256 0) =
      ⟨.ok 4, ⟨[(h256 9, [h256 8])], none⟩, [], []⟩ :=
  c7_publication_best_effort (.ok [h256 1]) (fun _ => .ok [])
    (.ok [[(h256 1, [(pairA 0, sig64)])]].head!) (fun _ => .ok [0, 1])
    ⟨[(h256 9, [h256 8])], none⟩ (h256 0) [h256 1] 4 rfl rfl rfl

end ValidatedStreams
